import Mathlib

/-!
Verification of `nascam_imager_readfile` (`src/python/nascam_imager_readfile/_nascam.py`)
against its natural-language specification.

The Python module is shallowly embedded: each Python function becomes a Lean
function over explicit data, with the external world (PNG decoding via
`cv2.imread`, tar archives via `tarfile`) abstracted into a `Disk` oracle and
`random.choices` into an explicit name supply.  Exceptions become `Option` /
`Except` values; the text carried by a caught Python exception (`str(e)`) is
abstracted to a fixed placeholder inside the recorded error messages.
Machine integers do not occur (pixel values are opaque payload; all counters
are unbounded Python ints), so `Nat` is used throughout.
-/

namespace Nascam

/-- A numpy dtype, as far as the module distinguishes them:
`np.dtype("uint16").newbyteorder('>')` (big-endian) in `__nascam_readfile_worker`,
plain `np.uint16` in `__nascam_readfile_worker_png`. -/
inductive Dtype where
  | uint16be
  | uint16
deriving DecidableEq, Repr

/-- A decoded 2-D image: the numpy array returned by
`cv2.imread(f, cv2.IMREAD_UNCHANGED)`.  `w` and `h` mirror `shape[0]` and
`shape[1]`; `px` is the pixel payload (row list).  numpy arrays are never
ragged, so the declared shape is authoritative for all shape checks. -/
structure Img where
  w : Nat
  h : Nat
  px : List (List Nat)
deriving DecidableEq, Repr

/-- A parsed timestamp, as produced by
`datetime.datetime.strptime(..., "%Y%m%dT%H%M%S")`. -/
structure DateTime where
  year : Nat
  month : Nat
  day : Nat
  hour : Nat
  minute : Nat
  second : Nat
deriving DecidableEq, Repr

/-- A metadata dictionary value: every field is a string except
`"Image request start"`, which is a `datetime`. -/
inductive MetaVal where
  | str (s : String)
  | time (t : DateTime)
deriving DecidableEq, Repr

/-- A Python dict used as a metadata record: an insertion-ordered
association list (Python dicts preserve insertion order). -/
abbrev Metadata := List (String × MetaVal)

/-- `__PNG_METADATA_PROJECT_UID = "nascam"`. -/
def PNG_METADATA_PROJECT_UID : String := "nascam"

/-- `__EXPECTED_FRAME_COUNT = 20`. -/
def EXPECTED_FRAME_COUNT : Nat := 20

/-- Python `str.split(sep)` on a character list: splitting on a single
separator character, keeping empty groups (structurally recursive so that
proofs can evaluate it). -/
def pySplitChar (sep : Char) : List Char → List (List Char)
  | [] => [[]]
  | c :: cs =>
    let r := pySplitChar sep cs
    if c = sep then [] :: r
    else
      match r with
      | [] => [[c]]
      | g :: gs => (c :: g) :: gs

/-- Python `str.split(sep)` for a one-character separator. -/
def pySplit (sep : Char) (s : String) : List String :=
  (pySplitChar sep s.data).map (fun cs => ⟨cs⟩)

/-- Whether the first list is a leading segment of the second. -/
def leadMatch : List Char → List Char → Bool
  | [], _ => true
  | _ :: _, [] => false
  | a :: as, b :: bs => decide (a = b) && leadMatch as bs

/-- Python `str.endswith(p)`. -/
def pyEndsWith (s p : String) : Bool :=
  leadMatch p.data.reverse s.data.reverse

/-- Python `s[:-n]` for `n > 0`: drop the last `n` characters (empty when
the string is no longer than `n`). -/
def pyDropRight (s : String) (n : Nat) : String :=
  ⟨s.data.take (s.data.length - n)⟩

/-- `os.path.basename`: the component after the last `/`. -/
def basename (s : String) : String :=
  (pySplit '/' s).reverse.headD s

/-- Value of a digit string, `none` if empty or containing a non-digit.
Helper for the model of Python `float`. -/
def parseDigits (cs : List Char) : Option Nat :=
  match cs with
  | [] => none
  | _ =>
    if cs.all Char.isDigit then
      some (cs.foldl (fun acc c => acc * 10 + (c.toNat - 48)) 0)
    else
      none

/-- Model of Python `float(s)` for the non-negative decimal literals the
filename contract produces: digits with an optional single decimal point
(`"001000"`, `"12.5"`, `"1."`, `".5"`).  The value is returned exactly as a
scaled integer `(mantissa, fracDigits)`, meaning `mantissa / 10 ^ fracDigits`;
signs, exponents, `inf`/`nan` and IEEE-754 rounding are outside the scope of
the modelled inputs. -/
def pyFloat (s : String) : Option (Nat × Nat) :=
  match pySplit '.' s with
  | [a] => (parseDigits a.data).map (fun v => (v, 0))
  | [a, b] =>
    if a.data.all Char.isDigit ∧ b.data.all Char.isDigit ∧ (a ≠ "" ∨ b ≠ "") then
      match parseDigits (a.data ++ b.data) with
      | some v => some (v, b.length)
      | none =>
        -- `a ++ b` is a non-empty digit string here, so this is unreachable
        some (0, b.length)
    else
      none
  | _ => none

/-- Round `m / d` to the nearest integer, ties to even (the rounding of C's
`%f` used by Python `%`-formatting). -/
def roundHalfEven (m d : Nat) : Nat :=
  let q := m / d
  let r := m % d
  if 2 * r < d then q
  else if d < 2 * r then q + 1
  else if q % 2 = 0 then q else q + 1

/-- Pad a value `< 1000` to exactly three digits. -/
def pad3 (n : Nat) : String :=
  if n < 10 then "00" ++ toString n
  else if n < 100 then "0" ++ toString n
  else toString n

/-- Model of `"%.03f" % x` applied to the exact scaled decimal `(m, k)`
(meaning `m / 10 ^ k`): format with exactly three digits after the point. -/
def format3f (mk : Nat × Nat) : String :=
  let scaled :=
    if mk.2 ≤ 3 then mk.1 * 10 ^ (3 - mk.2)
    else roundHalfEven mk.1 (10 ^ (mk.2 - 3))
  toString (scaled / 1000) ++ "." ++ pad3 (scaled % 1000)

/-- Days in a month, with the Gregorian leap rule (Python `datetime`
validates the day of month on construction). -/
def daysInMonth (y m : Nat) : Nat :=
  if m = 2 then
    if y % 4 = 0 ∧ (y % 100 ≠ 0 ∨ y % 400 = 0) then 29 else 28
  else if m = 4 ∨ m = 6 ∨ m = 9 ∨ m = 11 then 30
  else 31

/-- Model of `datetime.datetime.strptime(s, "%Y%m%dT%H%M%S")` for the
fixed-width form the filename contract produces: exactly
`YYYYMMDD` `T` `HHMMSS`, with the ranges `datetime` enforces.  (`strptime`
also tolerates narrower digit fields; the filename contract always supplies
full-width fields, which is the modelled scope.) -/
def strptimeYmdTHMS (s : String) : Option DateTime :=
  match s.data with
  | [y1, y2, y3, y4, mo1, mo2, d1, d2, t, h1, h2, mi1, mi2, s1, s2] =>
    if ([y1, y2, y3, y4, mo1, mo2, d1, d2, h1, h2, mi1, mi2, s1, s2].all Char.isDigit)
        ∧ t = 'T' then
      let dv := fun (a b : Char) => (a.toNat - 48) * 10 + (b.toNat - 48)
      let year := (dv y1 y2) * 100 + dv y3 y4
      let month := dv mo1 mo2
      let day := dv d1 d2
      let hour := dv h1 h2
      let minute := dv mi1 mi2
      let second := dv s1 s2
      if 1 ≤ month ∧ month ≤ 12 ∧ 1 ≤ day ∧ day ≤ daysInMonth year month
          ∧ hour ≤ 23 ∧ minute ≤ 59 ∧ second ≤ 59 ∧ 1 ≤ year then
        some ⟨year, month, day, hour, minute, second⟩
      else
        none
    else
      none
  | _ => none

/-- The metadata block of the per-frame loop in `__nascam_readfile_worker_png`
(lines 97-115): split the basename on `_`, read tokens 2..5 and 0..1, strip
the 6-character unit suffix from the exposure token, parse it as a float and
re-format to three decimals, and parse the timestamp.  Any failure (missing
token, non-numeric exposure, invalid timestamp) is the caught exception,
modelled as `none`. -/
def frameMetadata (f : String) : Option Metadata := do
  let file_split := pySplit '_' (basename f)
  let site_uid ← file_split[2]?
  let device_uid ← file_split[3]?
  let mode_uid ← file_split[4]?
  let tok5 ← file_split[5]?
  let expv ← pyFloat (pyDropRight tok5 6)
  let exposure := format3f expv ++ " ms"
  let tok0 ← file_split[0]?
  let tok1 ← file_split[1]?
  let timestamp ← strptimeYmdTHMS (tok0 ++ "T" ++ tok1)
  pure [
    ("Project unique ID", MetaVal.str PNG_METADATA_PROJECT_UID),
    ("Site unique ID", MetaVal.str site_uid),
    ("Imager unique ID", MetaVal.str device_uid),
    ("Mode unique ID", MetaVal.str mode_uid),
    ("Image request start", MetaVal.time timestamp),
    ("Subframe requested exposure", MetaVal.str exposure)
  ]

/-- Outcome of `cv2.imread(f, cv2.IMREAD_UNCHANGED)` on one path: a decoded
2-D array, or a failure (unreadable/corrupt file, for which `imread` returns
`None` and the subsequent `.shape` access raises). -/
inductive PngContent where
  | ok (img : Img)
  | corrupt
deriving Repr

/-- Outcome of opening a path with `tarfile.open` / `getnames` / `extractall`:
the sorted-later member-name list on success; `openFail` when `tarfile.open`
itself raises (no scratch directory was created yet); `extractFail created`
when `getnames`/`extractall` raise after `open` succeeded, `created` recording
whether a (partial) scratch directory was left on disk. -/
inductive TarOutcome where
  | ok (members : List String)
  | openFail
  | extractFail (created : Bool)
deriving Repr

/-- The external world the workers touch: per-path PNG decode outcomes and
per-path tar outcomes. -/
structure Disk where
  png : String → PngContent
  tar : String → TarOutcome

/-- The per-file work item built by `read` (lines 183-189). -/
structure FileObj where
  filename : String
  tar_tempdir : String
  quiet : Bool

/-- The 8-tuple a worker returns:
`(images, metadata_dict_list, problematic, filename, error_message,
image_width, image_height, image_dtype)`.  `images` is `np.array([])` or a
depth-stacked `(w, h, k)` array, modelled as the list of its `k` frames
(in both cases `shape[-1]` is the list length). -/
structure FileResult where
  images : List Img
  metadata_dict_list : List Metadata
  problematic : Bool
  filename : String
  error_message : String
  image_width : Nat
  image_height : Nat
  image_dtype : Dtype
deriving DecidableEq, Repr

/-- Mutable state of the per-frame loop of `__nascam_readfile_worker_png`
(lines 95-143). -/
structure LoopState where
  images : List Img
  metadata_dict_list : List Metadata
  problematic : Bool
  is_first : Bool
  error_message : String
  image_width : Nat
  image_height : Nat
deriving Repr

/-- One pass of the frame loop (lines 95-143): for each path, build the
metadata dict (on failure: flag, record the error, `break`); then decode the
image, record its `shape[0]`/`shape[1]`, and depth-stack it (on any failure in
that block — unreadable file or a `dstack` shape mismatch — pop the
just-appended metadata entry, flag, record the error, `continue`). -/
def frameLoop (d : Disk) : LoopState → List String → LoopState
  | st, [] => st
  | st, f :: fs =>
    match frameMetadata f with
    | none =>
      -- `break`: stop processing the remaining frame paths
      { st with problematic := true,
                error_message := "failed to read metadata: <exception>" }
    | some metadata_dict =>
      let st := { st with
        metadata_dict_list := st.metadata_dict_list ++ [metadata_dict] }
      match d.png f with
      | PngContent.corrupt =>
        frameLoop d { st with
          metadata_dict_list := st.metadata_dict_list.dropLast,
          problematic := true,
          error_message := "image data read failure: <exception>" } fs
      | PngContent.ok img =>
        -- `image_width = image_np.shape[0]` etc. happen before the stacking
        -- step, so they are updated even when `np.dstack` then raises
        let st := { st with image_width := img.w, image_height := img.h }
        if st.is_first then
          frameLoop d { st with images := [img], is_first := false } fs
        else
          match st.images with
          | [] =>
            -- `np.dstack` with the empty `np.array([])` raises
            frameLoop d { st with
              metadata_dict_list := st.metadata_dict_list.dropLast,
              problematic := true,
              error_message := "image data read failure: <exception>" } fs
          | i0 :: _ =>
            if img.w = i0.w ∧ img.h = i0.h then
              frameLoop d { st with images := st.images ++ [img] } fs
            else
              -- `np.dstack` raises on mismatched leading dimensions
              frameLoop d { st with
                metadata_dict_list := st.metadata_dict_list.dropLast,
                problematic := true,
                error_message := "image data read failure: <exception>" } fs

/-- `__nascam_readfile_worker_png` (lines 45-153).  `rand` supplies the
8-letter random scratch-directory suffix.  The second component of the result
records whether the scratch directory exists when the function returns. -/
def nascam_readfile_worker_png (d : Disk) (rand : String) (file_obj : FileObj) :
    FileResult × Bool :=
  let this_working_dir := file_obj.tar_tempdir ++ "/" ++ rand
  if pyEndsWith file_obj.filename ".png.tar" then
    match d.tar file_obj.filename with
    | TarOutcome.openFail =>
      -- `tarfile.open` raised; `shutil.rmtree` on the never-created directory
      -- raises and is swallowed; `tf.close()` raises (unbound) and is swallowed
      (⟨[], [], true, file_obj.filename, "failed to open file: <exception>",
        0, 0, Dtype.uint16⟩, false)
    | TarOutcome.extractFail _ =>
      -- `getnames`/`extractall` raised; `shutil.rmtree` removes whatever
      -- partial directory exists (failure swallowed)
      (⟨[], [], true, file_obj.filename, "failed to open file: <exception>",
        0, 0, Dtype.uint16⟩, false)
    | TarOutcome.ok members =>
      let file_list := (members.mergeSort (fun a b => decide (a ≤ b))).map
        (fun n => this_working_dir ++ "/" ++ n)
      let st := frameLoop d ⟨[], [], false, true, "", 0, 0⟩ file_list
      -- `working_dir_created` is true, so the final `shutil.rmtree` runs
      (⟨st.images, st.metadata_dict_list, st.problematic, file_obj.filename,
        st.error_message, st.image_width, st.image_height, Dtype.uint16⟩, false)
  else
    let st := frameLoop d ⟨[], [], false, true, "", 0, 0⟩ [file_obj.filename]
    (⟨st.images, st.metadata_dict_list, st.problematic, file_obj.filename,
      st.error_message, st.image_width, st.image_height, Dtype.uint16⟩, false)

/-- `__nascam_readfile_worker` (lines 18-42): dispatch on the filename
suffix.  For an unrecognized extension only a message is printed (when not
quiet); `problematic` stays `False` and the empty init values are returned. -/
def nascam_readfile_worker (d : Disk) (rand : String) (file_obj : FileObj) :
    FileResult × Bool :=
  if pyEndsWith file_obj.filename "png" ∨ pyEndsWith file_obj.filename "png.tar" then
    nascam_readfile_worker_png d rand file_obj
  else
    (⟨[], [], false, file_obj.filename, "", 0, 0, Dtype.uint16be⟩, false)

/-- An entry of the problematic-file list (lines 236-239). -/
structure Problem where
  filename : String
  error_message : String
deriving DecidableEq, Repr

/-- The triple `read` returns.  The volume `np.ndarray` of shape
`(width, height, depth)` is modelled as its declared `width`/`height`/dtype
plus the list of its `depth` frames. -/
structure ReadResult where
  width : Nat
  height : Nat
  dtype : Dtype
  volume : List Img
  metadata_dict_list : List Metadata
  problematic_file_list : List Problem
deriving DecidableEq, Repr

/-- The placeholder content of `np.empty([w, h, n])`: uninitialized memory,
modelled as a fixed arbitrary frame.  Aggregation only ever exposes buffer
positions that were written, so the placeholder never reaches a result. -/
def emptyImg (w h : Nat) : Img :=
  ⟨w, h, List.replicate w (List.replicate h 0)⟩

/-- Stretch a source frame onto a `(w, h)` destination slot under numpy
broadcasting (a source dimension of 1 is replicated; equal dimensions copy
as-is). -/
def broadcastTo (w h : Nat) (im : Img) : Img :=
  let rows := if im.w = w then im.px else List.replicate w (im.px.headD [])
  ⟨w, h, rows.map (fun r => if im.h = h then r else List.replicate h (r.headD 0))⟩

/-- `images[:, :, p:p+k] = A` (line 251) on a buffer of declared frame shape
`(w, h)`: the slice `p:p+k` clamps to the buffer length; the assignment
requires the source depth to equal the slice length and each source frame's
dimensions to be broadcastable onto `(w, h)`; otherwise numpy raises. -/
def writeSlice (buf : List Img) (w h p : Nat) (A : List Img) :
    Except String (List Img) :=
  if A.length = min (p + A.length) buf.length - min p buf.length
      ∧ A.all (fun im => (im.w = w ∨ im.w = 1) ∧ (im.h = h ∨ im.h = 1)) then
    Except.ok (buf.take p ++ A.map (broadcastTo w h) ++ buf.drop (p + A.length))
  else
    Except.error "could not broadcast input array"

/-- Mutable state of the reorganize loop of `read` (lines 231-252). -/
structure AggState where
  metadata_dict_list : List Metadata
  images : List Img
  problematic_file_list : List Problem
  list_position : Nat
deriving Repr

/-- One iteration of the reorganize loop (lines 233-252): append a problem
entry when the file was problematic; skip the file when it read no metadata;
otherwise splice its metadata into the list buffer (Python slice assignment,
which may change the list's length), write its frames into the volume buffer
(numpy slice assignment, which may raise), and advance the cursor by the
file's actual frame count `shape[-1]`. -/
def aggStep (w h : Nat) (st : AggState) (r : FileResult) :
    Except String AggState :=
  let probs :=
    if r.problematic then
      st.problematic_file_list ++ [⟨r.filename, r.error_message⟩]
    else
      st.problematic_file_list
  if r.metadata_dict_list.length = 0 then
    Except.ok { st with problematic_file_list := probs }
  else
    let real_num_frames := r.images.length
    let md := st.metadata_dict_list.take st.list_position
      ++ r.metadata_dict_list
      ++ st.metadata_dict_list.drop (st.list_position + real_num_frames)
    match writeSlice st.images w h st.list_position r.images with
    | Except.error e => Except.error e
    | Except.ok ims =>
      Except.ok ⟨md, ims, probs, st.list_position + real_num_frames⟩

/-- The reorganize loop over all worker results, in order. -/
def aggregate (w h : Nat) : AggState → List FileResult → Except String AggState
  | st, [] => Except.ok st
  | st, r :: rs =>
    match aggStep w h st r with
    | Except.error e => Except.error e
    | Except.ok st' => aggregate w h st' rs

/-- The tail of `read` after the worker results are in (lines 220-263):
take width/height/dtype from the first result (raising `IndexError` when the
result list is empty), pre-allocate both buffers to
`len(processing_list) * __EXPECTED_FRAME_COUNT`, run the reorganize loop, trim
both buffers to the final cursor, and re-assert the dtype. -/
def readMerge (file_count : Nat) (pool_data : List FileResult) :
    Except String ReadResult :=
  match pool_data with
  | [] => Except.error "IndexError: list index out of range"
  | pd0 :: _ =>
    let image_width := pd0.image_width
    let image_height := pd0.image_height
    let image_dtype := pd0.image_dtype
    let predicted_num_frames := file_count * EXPECTED_FRAME_COUNT
    let init : AggState :=
      ⟨List.replicate predicted_num_frames [],
       List.replicate predicted_num_frames (emptyImg image_width image_height),
       [], 0⟩
    match aggregate image_width image_height init pool_data with
    | Except.error e => Except.error e
    | Except.ok st =>
      Except.ok ⟨image_width, image_height, image_dtype,
        st.images.take st.list_position,
        st.metadata_dict_list.take st.list_position,
        st.problematic_file_list⟩

/-- `pool.map(f, xs)` under an explicit completion schedule: workers finish
in the order given by `sched` (a permutation of the input indices), each
reporting `(input index, result)`, and the pool gathers the tagged results
back into input order.  This models that `multiprocessing.Pool.map` returns
results in input order regardless of completion order. -/
def poolMapSched (f : α → β) (xs : List α) (sched : List Nat) : List β :=
  let completed := sched.filterMap (fun i => (xs[i]?).map (fun a => (i, f a)))
  (List.range xs.length).filterMap
    (fun i => (completed.find? (fun p => p.1 = i)).map Prod.snd)

/-- `read` (lines 156-263).  `rand` supplies each file's random scratch
suffix; `sched` is the completion schedule of the worker pool (used only when
`workers > 1`).  The `tar_tempdir` default, `os.makedirs`, and the
single-string-to-list coercion are outside the modelled inputs; the
`KeyboardInterrupt` early return cannot be triggered in a sequential model. -/
def read (d : Disk) (rand : String → String) (tar_tempdir : String)
    (quiet : Bool) (file_list : List String) (workers : Nat)
    (sched : List Nat) : Except String ReadResult :=
  let processing_list := file_list.map
    (fun f => FileObj.mk f tar_tempdir quiet)
  let worker := fun (o : FileObj) => (nascam_readfile_worker d (rand o.filename) o).1
  let pool_data :=
    if workers > 1 then poolMapSched worker processing_list sched
    else processing_list.map worker
  readMerge processing_list.length pool_data

/-- The problem entries the reorganize loop accumulates for a result list,
in order. -/
def problemsOf (rs : List FileResult) : List Problem :=
  rs.filterMap (fun r =>
    if r.problematic then some ⟨r.filename, r.error_message⟩ else none)

/-! ### Concrete instances used by the test scenarios -/

/-- A disk on which every PNG is unreadable and every tar fails to open. -/
def diskEmpty : Disk :=
  ⟨fun _ => PngContent.corrupt, fun _ => TarOutcome.openFail⟩

/-- The frame filename of the repository's concrete single-PNG test
scenario. -/
def goodName : String := "20090209_060501_gill_nascam-iccd02_5577_001000ms.png"

/-- A 256×256 all-zero frame, standing for the decoded pixel grid of the
concrete test PNG. -/
def img256 : Img := ⟨256, 256, List.replicate 256 (List.replicate 256 0)⟩

/-- A disk holding exactly the concrete 256×256 test PNG. -/
def disk256 : Disk :=
  ⟨fun f => if f = goodName then PngContent.ok img256 else PngContent.corrupt,
   fun _ => TarOutcome.openFail⟩

/-- A small 2×2 frame for the two-file scenarios. -/
def img2 : Img := ⟨2, 2, [[1, 2], [3, 4]]⟩

/-- A second valid frame filename (different timestamp and exposure). -/
def goodName2 : String := "20090209_060502_gill_nascam-iccd02_5577_002000ms.png"

/-- A filename following the contract whose PNG payload is corrupt on
`diskTwo`. -/
def corruptName : String := "20090209_060503_gill_nascam-iccd02_5577_001000ms.png"

/-- A disk with two small valid PNGs and one corrupt one. -/
def diskTwo : Disk :=
  ⟨fun f =>
    if f = goodName ∨ f = goodName2 then PngContent.ok img2
    else PngContent.corrupt,
   fun _ => TarOutcome.openFail⟩

/-- The metadata record extracted from `goodName`. -/
def mdGood : Metadata :=
  [("Project unique ID", MetaVal.str "nascam"),
   ("Site unique ID", MetaVal.str "gill"),
   ("Imager unique ID", MetaVal.str "nascam-iccd02"),
   ("Mode unique ID", MetaVal.str "5577"),
   ("Image request start", MetaVal.time ⟨2009, 2, 9, 6, 5, 1⟩),
   ("Subframe requested exposure", MetaVal.str "1000.000 ms")]

/-- The metadata record extracted from `goodName2`. -/
def mdGood2 : Metadata :=
  [("Project unique ID", MetaVal.str "nascam"),
   ("Site unique ID", MetaVal.str "gill"),
   ("Imager unique ID", MetaVal.str "nascam-iccd02"),
   ("Mode unique ID", MetaVal.str "5577"),
   ("Image request start", MetaVal.time ⟨2009, 2, 9, 6, 5, 2⟩),
   ("Subframe requested exposure", MetaVal.str "2000.000 ms")]

/-! ### Helper lemmas -/

/-- The frame loop keeps one metadata entry per stacked frame: the
metadata-failure branch stops without touching either list, and both
decode-failure branches pop exactly the entry appended for the failed
frame.  The auxiliary conjunct records that `is_first` still being set means
no frame has been stacked yet. -/
theorem frameLoop_invariant (d : Disk) (fs : List String) (st : LoopState)
    (h : st.metadata_dict_list.length = st.images.length
      ∧ (st.is_first = true → st.images = [])) :
    (frameLoop d st fs).metadata_dict_list.length = (frameLoop d st fs).images.length
      ∧ ((frameLoop d st fs).is_first = true → (frameLoop d st fs).images = []) := by
  induction fs generalizing st with
  | nil => simpa [frameLoop] using h
  | cons f fs ih =>
    obtain ⟨hlen, hfirst⟩ := h
    simp only [frameLoop]
    cases hm : frameMetadata f with
    | none => exact ⟨hlen, hfirst⟩
    | some md =>
      dsimp only
      cases hp : d.png f with
      | corrupt =>
        apply ih
        dsimp only
        refine ⟨?_, hfirst⟩
        rw [List.dropLast_concat]
        exact hlen
      | ok img =>
        dsimp only
        by_cases hf : st.is_first = true
        · rw [if_pos hf]
          apply ih
          dsimp only
          have h0 : st.images = [] := hfirst hf
          refine ⟨?_, ?_⟩
          · rw [h0] at hlen
            simp only [List.length_nil] at hlen
            simp [hlen]
          · intro hc
            simp at hc
        · rw [if_neg hf]
          cases hi : st.images with
          | nil =>
            dsimp only
            apply ih
            dsimp only
            refine ⟨?_, fun hc => absurd hc hf⟩
            rw [List.dropLast_concat]
            rw [hi] at hlen
            simpa using hlen
          | cons i0 tl =>
            dsimp only
            by_cases hd : img.w = i0.w ∧ img.h = i0.h
            · rw [if_pos hd]
              apply ih
              dsimp only
              refine ⟨?_, fun hc => absurd hc hf⟩
              rw [hi] at hlen
              simp only [List.length_append, List.length_cons, List.length_nil] at hlen ⊢
              omega
            · rw [if_neg hd]
              apply ih
              dsimp only
              refine ⟨?_, fun hc => absurd hc hf⟩
              rw [List.dropLast_concat]
              rw [hi] at hlen
              simpa using hlen

/-- The frame loop started from the worker's init state keeps the two lists
at equal length. -/
theorem frameLoop_length_init (d : Disk) (fs : List String) :
    (frameLoop d ⟨[], [], false, true, "", 0, 0⟩ fs).metadata_dict_list.length
      = (frameLoop d ⟨[], [], false, true, "", 0, 0⟩ fs).images.length := by
  have hinv := frameLoop_invariant d fs
    { images := [], metadata_dict_list := [], problematic := false, is_first := true,
      error_message := "", image_width := 0, image_height := 0 }
    (And.intro rfl (fun _ => rfl))
  exact hinv.1

/-- FileResult invariant for the PNG worker: as many stacked frames as
metadata entries. -/
theorem worker_png_length (d : Disk) (rand : String) (o : FileObj) :
    ((nascam_readfile_worker_png d rand o).1).metadata_dict_list.length
      = ((nascam_readfile_worker_png d rand o).1).images.length := by
  unfold nascam_readfile_worker_png
  by_cases ht : pyEndsWith o.filename ".png.tar" = true
  · simp only [ht, if_true]
    cases h : d.tar o.filename with
    | openFail => rfl
    | extractFail c => rfl
    | ok members => exact frameLoop_length_init d _
  · simp only [ht, if_false]
    exact (frameLoop_length_init d _)

/-- FileResult invariant for the dispatch worker. -/
theorem worker_length (d : Disk) (rand : String) (o : FileObj) :
    ((nascam_readfile_worker d rand o).1).metadata_dict_list.length
      = ((nascam_readfile_worker d rand o).1).images.length := by
  unfold nascam_readfile_worker
  by_cases hp : pyEndsWith o.filename "png" = true ∨ pyEndsWith o.filename "png.tar" = true
  · simp only [hp, if_true]
    exact worker_png_length d rand o
  · simp only [hp, if_false]
    rfl

/-- Broadcasting a frame onto a slot of its own dimensions copies it
unchanged. -/
theorem broadcastTo_self (w h : Nat) (im : Img) (hw : im.w = w) (hh : im.h = h) :
    broadcastTo w h im = im := by
  subst hw hh
  simp [broadcastTo]

/-- Mapping `broadcastTo` over frames that already have the target shape is
the identity. -/
theorem map_broadcastTo_self (w h : Nat) :
    ∀ (A : List Img), (∀ im ∈ A, im.w = w ∧ im.h = h) →
      A.map (broadcastTo w h) = A := by
  intro A
  induction A with
  | nil => intro _; rfl
  | cons a as ih =>
    intro hdims
    simp only [List.map_cons]
    rw [broadcastTo_self w h a (hdims a (by simp)).1 (hdims a (by simp)).2,
      ih (fun im him => hdims im (by simp [him]))]

/-- When the slice fits and every source frame matches the buffer's frame
shape exactly, the numpy slice assignment succeeds and is a plain splice. -/
theorem writeSlice_ok (buf : List Img) (w h p : Nat) (A : List Img)
    (hfit : p + A.length ≤ buf.length)
    (hdims : ∀ im ∈ A, im.w = w ∧ im.h = h) :
    writeSlice buf w h p A = Except.ok (buf.take p ++ A ++ buf.drop (p + A.length)) := by
  unfold writeSlice
  rw [if_pos, map_broadcastTo_self w h A hdims]
  constructor
  · omega
  · simp only [List.all_eq_true, decide_eq_true_eq]
    intro im him
    exact ⟨Or.inl (hdims im him).1, Or.inl (hdims im him).2⟩

/-- A successful numpy slice assignment starting inside the buffer implies
the slice fitted, and the result is the splice of the broadcast frames. -/
theorem writeSlice_ok_inv (buf : List Img) (w h p : Nat) (A : List Img)
    (out : List Img) (hp : p ≤ buf.length)
    (hok : writeSlice buf w h p A = Except.ok out) :
    p + A.length ≤ buf.length
      ∧ out = buf.take p ++ A.map (broadcastTo w h) ++ buf.drop (p + A.length) := by
  unfold writeSlice at hok
  by_cases hc : A.length = min (p + A.length) buf.length - min p buf.length
      ∧ A.all (fun im => (im.w = w ∨ im.w = 1) ∧ (im.h = h ∨ im.h = 1))
  · have hfit : p + A.length ≤ buf.length := by
      rcases hc with ⟨hlen, -⟩
      omega
    rw [if_pos hc] at hok
    injection hok with hout
    exact ⟨hfit, hout.symm⟩
  · rw [if_neg hc] at hok
    exact absurd hok (by simp)

/-- Length bookkeeping for a successful slice assignment. -/
theorem writeSlice_length (buf : List Img) (w h p : Nat) (A : List Img)
    (out : List Img) (hp : p ≤ buf.length)
    (hok : writeSlice buf w h p A = Except.ok out) :
    out.length = buf.length := by
  obtain ⟨hfit, hout⟩ := writeSlice_ok_inv buf w h p A out hp hok
  subst hout
  simp only [List.length_append, List.length_take, List.length_map, List.length_drop]
  omega

/-- Taking a splice back out returns its written prefix. -/
theorem splice_take {α : Type} (L xs : List α) (p k : Nat)
    (hp : p ≤ L.length) (hk : xs.length = k) :
    ((L.take p ++ xs) ++ L.drop (p + k)).take (p + k) = L.take p ++ xs := by
  apply List.take_left'
  simp [Nat.min_eq_left hp, hk]

/-- Dropping past a splice is dropping past the same point of the original
list. -/
theorem splice_drop {α : Type} (L xs : List α) (p k n : Nat)
    (hp : p ≤ L.length) (hk : xs.length = k) :
    ((L.take p ++ xs) ++ L.drop (p + k)).drop (p + k + n) = L.drop (p + k + n) := by
  have hl : (L.take p ++ xs).length = p + k := by
    simp [Nat.min_eq_left hp, hk]
  rw [show p + k + n = (L.take p ++ xs).length + n by omega]
  rw [List.drop_append, List.drop_drop, hl]

/-- Full characterization of a successful run of the reorganize loop: when
every result keeps one metadata entry per frame, every frame matches the
buffer frame shape, and the surviving frames fit the remaining capacity, the
loop succeeds; it splices the concatenated metadata and frames at the cursor
and appends one problem entry per problematic result, in input order. -/
theorem aggregate_complete (w h : Nat) (rs : List FileResult) (st : AggState)
    (hlen : ∀ r ∈ rs, r.metadata_dict_list.length = r.images.length)
    (hdims : ∀ r ∈ rs, ∀ im ∈ r.images, im.w = w ∧ im.h = h)
    (hmd : st.metadata_dict_list.length = st.images.length)
    (hcap : st.list_position + (rs.map (fun r => r.images.length)).sum
      ≤ st.images.length) :
    aggregate w h st rs = Except.ok {
      metadata_dict_list := st.metadata_dict_list.take st.list_position
        ++ (rs.map (fun r => r.metadata_dict_list)).flatten
        ++ st.metadata_dict_list.drop
            (st.list_position + (rs.map (fun r => r.images.length)).sum),
      images := st.images.take st.list_position
        ++ (rs.map (fun r => r.images)).flatten
        ++ st.images.drop
            (st.list_position + (rs.map (fun r => r.images.length)).sum),
      problematic_file_list := st.problematic_file_list ++ problemsOf rs,
      list_position :=
        st.list_position + (rs.map (fun r => r.images.length)).sum } := by
  induction rs generalizing st with
  | nil =>
    obtain ⟨M, I, P, pos⟩ := st
    simp [aggregate, problemsOf, List.take_append_drop]
  | cons r rest ih =>
    have hk : r.metadata_dict_list.length = r.images.length := hlen r (by simp)
    have hsum : ((r :: rest).map (fun r => r.images.length)).sum
        = r.images.length + (rest.map (fun r => r.images.length)).sum := by
      simp
    have hpos_le : st.list_position ≤ st.images.length := by omega
    by_cases hz : r.metadata_dict_list.length = 0
    · have himg0 : r.images = [] := List.length_eq_zero.mp (by omega)
      have hmd0 : r.metadata_dict_list = [] := List.length_eq_zero.mp hz
      simp only [aggregate, aggStep]
      rw [if_pos hz]
      dsimp only
      rw [ih { st with problematic_file_list :=
            if r.problematic then
              st.problematic_file_list ++ [⟨r.filename, r.error_message⟩]
            else st.problematic_file_list }
          (fun x hx => hlen x (by simp [hx]))
          (fun x hx => hdims x (by simp [hx]))
          hmd (by simp at hcap ⊢; omega)]
      congr 1
      refine AggState.mk.injEq _ _ _ _ _ _ _ _ ▸ ?_
      simp [hmd0, himg0, problemsOf, List.filterMap_cons]
      by_cases hpr : r.problematic <;> simp [hpr]
    · have hfit : st.list_position + r.images.length ≤ st.images.length := by
        rw [hsum] at hcap
        omega
      have hws := writeSlice_ok st.images w h st.list_position r.images hfit
        (hdims r (by simp))
      simp only [aggregate, aggStep]
      rw [if_neg hz]
      rw [hws]
      dsimp only
      have hmd_le : st.list_position + r.images.length
          ≤ st.metadata_dict_list.length := by omega
      rw [ih ⟨st.metadata_dict_list.take st.list_position ++ r.metadata_dict_list
            ++ st.metadata_dict_list.drop (st.list_position + r.images.length),
          st.images.take st.list_position ++ r.images
            ++ st.images.drop (st.list_position + r.images.length),
          _, st.list_position + r.images.length⟩
          (fun x hx => hlen x (by simp [hx]))
          (fun x hx => hdims x (by simp [hx]))
          (by
            simp only [List.length_append, List.length_take, List.length_drop]
            omega)
          (by
            simp only [List.length_append, List.length_take, List.length_drop]
            rw [hsum] at hcap
            omega)]
      congr 1
      have htkM : ((st.metadata_dict_list.take st.list_position
            ++ r.metadata_dict_list)
          ++ st.metadata_dict_list.drop (st.list_position + r.images.length)).take
            (st.list_position + r.images.length)
          = st.metadata_dict_list.take st.list_position ++ r.metadata_dict_list := by
        apply splice_take
        · omega
        · omega
      have htkI : ((st.images.take st.list_position ++ r.images)
          ++ st.images.drop (st.list_position + r.images.length)).take
            (st.list_position + r.images.length)
          = st.images.take st.list_position ++ r.images := by
        apply splice_take
        · omega
        · rfl
      have hdrM := splice_drop st.metadata_dict_list r.metadata_dict_list
        st.list_position r.images.length
        ((rest.map (fun r => r.images.length)).sum) (by omega) (by omega)
      have hdrI := splice_drop st.images r.images
        st.list_position r.images.length
        ((rest.map (fun r => r.images.length)).sum) (by omega) rfl
      refine AggState.mk.injEq _ _ _ _ _ _ _ _ ▸ ?_
      refine ⟨?_, ?_, ?_, ?_⟩
      · rw [htkM, hdrM]
        simp only [List.map_cons, List.flatten_cons, List.sum_cons, hsum,
          List.append_assoc, Nat.add_assoc]
      · rw [htkI, hdrI]
        simp only [List.map_cons, List.flatten_cons, List.sum_cons, hsum,
          List.append_assoc, Nat.add_assoc]
      · simp only [problemsOf, List.filterMap_cons]
        by_cases hpr : r.problematic <;> simp [hpr]
      · simp only [List.map_cons, List.sum_cons]
        omega

/-- Any successful run of the reorganize loop over results that keep one
metadata entry per frame preserves the buffer lengths and keeps the cursor
inside the buffers. -/
theorem aggregate_length_invariant (w h : Nat) (rs : List FileResult)
    (st st' : AggState)
    (hok : aggregate w h st rs = Except.ok st')
    (hlen : ∀ r ∈ rs, r.metadata_dict_list.length = r.images.length)
    (hmd : st.metadata_dict_list.length = st.images.length)
    (hpos : st.list_position ≤ st.images.length) :
    st'.metadata_dict_list.length = st'.images.length
      ∧ st'.list_position ≤ st'.images.length
      ∧ st'.images.length = st.images.length := by
  induction rs generalizing st with
  | nil =>
    simp only [aggregate] at hok
    injection hok with hok
    subst hok
    exact ⟨hmd, hpos, rfl⟩
  | cons r rest ih =>
    have hk : r.metadata_dict_list.length = r.images.length := hlen r (by simp)
    simp only [aggregate, aggStep] at hok
    by_cases hz : r.metadata_dict_list.length = 0
    · rw [if_pos hz] at hok
      dsimp only at hok
      exact ih { st with problematic_file_list :=
          if r.problematic then
            st.problematic_file_list ++ [⟨r.filename, r.error_message⟩]
          else st.problematic_file_list }
        hok (fun x hx => hlen x (by simp [hx])) hmd hpos
    · rw [if_neg hz] at hok
      cases hws : writeSlice st.images w h st.list_position r.images with
      | error e =>
        rw [hws] at hok
        exact absurd hok (by simp)
      | ok ims =>
        rw [hws] at hok
        dsimp only at hok
        obtain ⟨hfit, hims⟩ := writeSlice_ok_inv _ _ _ _ _ _ hpos hws
        have himslen : ims.length = st.images.length := by
          subst hims
          simp only [List.length_append, List.length_take, List.length_map,
            List.length_drop]
          omega
        have hres := ih ⟨st.metadata_dict_list.take st.list_position
              ++ r.metadata_dict_list
              ++ st.metadata_dict_list.drop
                  (st.list_position + r.images.length),
            ims, _, st.list_position + r.images.length⟩
          hok (fun x hx => hlen x (by simp [hx]))
          (by
            simp only [List.length_append, List.length_take, List.length_drop,
              himslen]
            omega)
          (by
            simp only [himslen]
            omega)
        exact ⟨hres.1, hres.2.1, by rw [hres.2.2, himslen]⟩

/-- On success, the metadata list and the volume returned by the merge phase
have the same length: both buffers are trimmed to the same final cursor. -/
theorem readMerge_length (n : Nat) (pool_data : List FileResult)
    (res : ReadResult)
    (hlen : ∀ r ∈ pool_data, r.metadata_dict_list.length = r.images.length)
    (hok : readMerge n pool_data = Except.ok res) :
    res.metadata_dict_list.length = res.volume.length := by
  cases pool_data with
  | nil => simp [readMerge] at hok
  | cons pd0 tl =>
    simp only [readMerge] at hok
    cases hag : aggregate pd0.image_width pd0.image_height
        ⟨List.replicate (n * EXPECTED_FRAME_COUNT) [],
         List.replicate (n * EXPECTED_FRAME_COUNT)
           (emptyImg pd0.image_width pd0.image_height), [], 0⟩
        (pd0 :: tl) with
    | error e =>
      rw [hag] at hok
      exact absurd hok (by simp)
    | ok st =>
      rw [hag] at hok
      injection hok with hok
      subst hok
      have hinv := aggregate_length_invariant _ _ _ _ _ hag hlen
        (by simp) (by simp)
      dsimp only
      simp only [List.length_take]
      rw [hinv.1]

/-- On success with a non-empty result list, the width, height, and dtype of
the result are those recorded in the first worker result. -/
theorem readMerge_dims (n : Nat) (pd0 : FileResult) (tl : List FileResult)
    (res : ReadResult)
    (hok : readMerge n (pd0 :: tl) = Except.ok res) :
    res.width = pd0.image_width ∧ res.height = pd0.image_height
      ∧ res.dtype = pd0.image_dtype := by
  simp only [readMerge] at hok
  cases hag : aggregate pd0.image_width pd0.image_height
      ⟨List.replicate (n * EXPECTED_FRAME_COUNT) [],
       List.replicate (n * EXPECTED_FRAME_COUNT)
         (emptyImg pd0.image_width pd0.image_height), [], 0⟩
      (pd0 :: tl) with
  | error e =>
    rw [hag] at hok
    exact absurd hok (by simp)
  | ok st =>
    rw [hag] at hok
    injection hok with hok
    subst hok
    exact ⟨rfl, rfl, rfl⟩

/-- A `filterMap` whose function always hits is a `map`. -/
theorem filterMap_of_forall_some {α β : Type} (g : α → Option β) (f : α → β)
    (l : List α) (h : ∀ a ∈ l, g a = some (f a)) :
    l.filterMap g = l.map f := by
  induction l with
  | nil => rfl
  | cons a as ih =>
    rw [List.filterMap_cons, h a (by simp), List.map_cons,
      ih (fun x hx => h x (by simp [hx]))]

/-- Looking up input index `i` among the tagged results of any completion
order that contains `i` finds exactly worker `i`'s result. -/
theorem find_completed {α β : Type} (f : α → β) (xs : List α) (l : List Nat)
    (i : Nat) (a : α) (hmem : i ∈ l) (hlt : ∀ j ∈ l, j < xs.length)
    (ha : xs[i]? = some a) :
    ((l.filterMap (fun j => (xs[j]?).map (fun x => (j, f x)))).find?
      (fun p => p.1 = i)) = some (i, f a) := by
  induction l with
  | nil => simp at hmem
  | cons j js ih =>
    have hj : j < xs.length := hlt j (by simp)
    have hb : xs[j]? = some xs[j] := List.getElem?_eq_getElem hj
    rw [List.filterMap_cons, hb]
    simp only [Option.map_some']
    by_cases hij : j = i
    · subst hij
      rw [ha] at hb
      injection hb with hb
      rw [hb]
      simp [List.find?_cons]
    · rw [List.find?_cons]
      have hdec : decide ((j, f xs[j]).1 = i) = false := by
        simp [hij]
      rw [hdec]
      have hmem' : i ∈ js := by
        cases List.mem_cons.mp hmem with
        | inl hcontra => exact absurd hcontra.symm hij
        | inr h => exact h
      exact ih hmem' (fun x hx => hlt x (by simp [hx]))

/-- Gathering per-index options that always resolve to the element under `f`
yields the map of `f` over the list. -/
theorem range_filterMap_getElem {α β : Type} (f : α → β) :
    ∀ (xs : List α) (g : Nat → Option β),
      (∀ i, i < xs.length → g i = (xs[i]?).map f) →
      (List.range xs.length).filterMap g = xs.map f := by
  intro xs
  induction xs with
  | nil => intro g _; rfl
  | cons x tl ih =>
    intro g hg
    have h0 : g 0 = some (f x) := by simpa using hg 0 (by simp)
    rw [List.length_cons, List.range_succ_eq_map, List.filterMap_cons, h0]
    dsimp only
    rw [List.filterMap_map]
    have htl := ih (fun i => g (Nat.succ i)) (fun i hi => by
      have hgi := hg (i + 1) (by simpa using Nat.succ_lt_succ hi)
      simpa using hgi)
    rw [show (g ∘ Nat.succ) = (fun i => g (Nat.succ i)) from rfl, htl]
    rfl

/-- `pool.map` under any completion schedule that is a permutation of the
input indices returns exactly the in-order map of the worker over the
inputs: worker completion order does not affect the gathered result. -/
theorem poolMapSched_perm {α β : Type} (f : α → β) (xs : List α)
    (sched : List Nat) (hperm : sched.Perm (List.range xs.length)) :
    poolMapSched f xs sched = xs.map f := by
  unfold poolMapSched
  have hlt : ∀ j ∈ sched, j < xs.length := by
    intro j hj
    have := hperm.mem_iff.mp hj
    simpa [List.mem_range] using this
  apply range_filterMap_getElem
  intro i hi
  have hmem : i ∈ sched := hperm.mem_iff.mpr (by simpa [List.mem_range] using hi)
  have ha : xs[i]? = some xs[i] := List.getElem?_eq_getElem hi
  rw [find_completed f xs sched i xs[i] hmem hlt ha, ha]
  rfl

/-- With one worker, `read` is the merge phase applied to the in-order
worker results. -/
theorem read_workers_one (d : Disk) (rand : String → String) (tmp : String)
    (q : Bool) (fl : List String) (sched : List Nat) :
    read d rand tmp q fl 1 sched
      = readMerge fl.length
          (fl.map (fun f => (nascam_readfile_worker d (rand f) ⟨f, tmp, q⟩).1)) := by
  unfold read
  dsimp only
  rw [if_neg (by omega : ¬ (1:Nat) > 1), List.map_map, List.length_map]
  rfl

/-- Every element of a gathered pool result is a worker result of some
input. -/
theorem mem_poolMapSched {α β : Type} (f : α → β) (xs : List α)
    (sched : List Nat) (b : β) (hb : b ∈ poolMapSched f xs sched) :
    ∃ a ∈ xs, b = f a := by
  unfold poolMapSched at hb
  obtain ⟨i, hi, hfind⟩ := List.mem_filterMap.mp hb
  obtain ⟨p, hp, hps⟩ := Option.map_eq_some'.mp hfind
  have hpmem := List.mem_of_find?_eq_some hp
  obtain ⟨j, hj, hgj⟩ := List.mem_filterMap.mp hpmem
  obtain ⟨a, ha, hpa⟩ := Option.map_eq_some'.mp hgj
  refine ⟨a, ?_, ?_⟩
  · exact List.getElem?_mem ha
  · rw [← hps, ← hpa]

/-- The merge phase on a non-empty result list whose results keep one
metadata entry per frame, match the first result's frame shape, and fit the
pre-allocated capacity: it returns the concatenation of all surviving frames
and metadata, with one problem entry per problematic result. -/
theorem readMerge_ok_of (n : Nat) (pd0 : FileResult) (tl : List FileResult)
    (hlen : ∀ r ∈ pd0 :: tl, r.metadata_dict_list.length = r.images.length)
    (hdims : ∀ r ∈ pd0 :: tl, ∀ im ∈ r.images,
      im.w = pd0.image_width ∧ im.h = pd0.image_height)
    (hcap : ((pd0 :: tl).map (fun r => r.images.length)).sum
      ≤ n * EXPECTED_FRAME_COUNT) :
    readMerge n (pd0 :: tl)
      = Except.ok ⟨pd0.image_width, pd0.image_height, pd0.image_dtype,
          ((pd0 :: tl).map (fun r => r.images)).flatten,
          ((pd0 :: tl).map (fun r => r.metadata_dict_list)).flatten,
          problemsOf (pd0 :: tl)⟩ := by
  simp only [readMerge]
  rw [aggregate_complete pd0.image_width pd0.image_height (pd0 :: tl) _ hlen hdims
    (by simp) (by simpa using hcap)]
  dsimp only
  have hflatlen : (((pd0 :: tl).map (fun r => r.images)).flatten).length
      = ((pd0 :: tl).map (fun r => r.images.length)).sum := by
    rw [List.length_flatten, List.map_map]
    rfl
  have hmdlen : (((pd0 :: tl).map (fun r => r.metadata_dict_list)).flatten).length
      = ((pd0 :: tl).map (fun r => r.images.length)).sum := by
    rw [List.length_flatten, List.map_map]
    congr 1
    apply List.map_congr_left
    intro r hr
    exact hlen r hr
  congr 1
  refine ReadResult.mk.injEq _ _ _ _ _ _ _ _ _ _ _ _ ▸ ?_
  refine ⟨rfl, rfl, rfl, ?_, ?_, rfl⟩
  · simp only [List.take_zero, List.nil_append, Nat.zero_add]
    exact List.take_left' hflatlen
  · simp only [List.take_zero, List.nil_append, Nat.zero_add]
    exact List.take_left' hmdlen

/-! ### Claim theorems -/

/-- C1, counterexample: for the input file `notes.txt` (which ends in neither
`png` nor `png.tar`), `read` succeeds with an empty problem list — no
problem-list entry names the file, contradicting the claim; the file does
contribute zero frames and zero metadata entries. -/
theorem c1_counterexample :
    read diskEmpty (fun _ => "r1") "/tmp" false ["notes.txt"] 1 []
      = Except.ok ⟨0, 0, Dtype.uint16be, [], [], []⟩ := by
  rfl

/-- C1 (amended): for every input file whose filename ends in neither `png`
nor `png.tar`, the worker returns an empty, non-problematic result (the
unrecognized type is only printed, `problematic` stays false and the error
message stays empty), so the file contributes zero frames, zero metadata
entries, and **no** problem-list entry to `read`'s result. -/
theorem c1_unsupported_yields_empty_nonproblematic (d : Disk)
    (rand : String → String) (tmp : String) (q : Bool) (f : String)
    (sched : List Nat)
    (h1 : pyEndsWith f "png" = false) (h2 : pyEndsWith f "png.tar" = false) :
    nascam_readfile_worker d (rand f) ⟨f, tmp, q⟩
      = (⟨[], [], false, f, "", 0, 0, Dtype.uint16be⟩, false)
    ∧ read d rand tmp q [f] 1 sched
      = Except.ok ⟨0, 0, Dtype.uint16be, [], [], []⟩ := by
  have hw : nascam_readfile_worker d (rand f) ⟨f, tmp, q⟩
      = (⟨[], [], false, f, "", 0, 0, Dtype.uint16be⟩, false) := by
    unfold nascam_readfile_worker
    rw [if_neg]
    simp [h1, h2]
  refine ⟨hw, ?_⟩
  rw [read_workers_one]
  simp only [List.map_cons, List.map_nil, hw]
  rfl

/-- C1, witness: the amended statement at the concrete file `notes.txt`. -/
theorem c1_witness :
    pyEndsWith "notes.txt" "png" = false
    ∧ pyEndsWith "notes.txt" "png.tar" = false
    ∧ read diskEmpty (fun _ => "w1") "/x" false ["notes.txt"] 1 []
      = Except.ok ⟨0, 0, Dtype.uint16be, [], [], []⟩ :=
  ⟨rfl, rfl,
    (c1_unsupported_yields_empty_nonproblematic diskEmpty (fun _ => "w1") "/x"
      false "notes.txt" [] rfl rfl).2⟩

/-- C2, counterexample: for the input list `["notes.txt", goodName]` the
second file decodes fine, but because the first (unsupported-format) file's
result fixes the buffer shape at `(0, 0)`, the Aggregator's slice assignment
raises and `read` fails instead of returning a `(volume, metadata, problems)`
triple — the unsupported-format failure was also not converted into a problem
entry. -/
theorem c2_counterexample :
    read diskTwo (fun _ => "r2") "/tmp" false ["notes.txt", goodName] 1 []
      = Except.error "could not broadcast input array" := by
  rfl

/-- C2 (amended): the workers never raise (every per-file failure is
contained in the returned FileResult), and `read` completes normally with a
result triple provided every surviving frame matches the first file's
recorded dimensions and the surviving frames fit the pre-allocated capacity;
without that proviso the Aggregator itself can raise on the buffer merge. -/
theorem c2_read_ok_of_uniform_dims (d : Disk) (rand : String → String)
    (tmp : String) (q : Bool) (f0 : String) (rest : List String)
    (workers : Nat) (sched : List Nat)
    (hw : workers = 1 ∨ (1 < workers
      ∧ sched.Perm (List.range (f0 :: rest).length)))
    (hdims : ∀ f ∈ f0 :: rest,
      ∀ im ∈ ((nascam_readfile_worker d (rand f) ⟨f, tmp, q⟩).1).images,
        im.w = ((nascam_readfile_worker d (rand f0) ⟨f0, tmp, q⟩).1).image_width
        ∧ im.h = ((nascam_readfile_worker d (rand f0) ⟨f0, tmp, q⟩).1).image_height)
    (hcap : ((f0 :: rest).map
        (fun f => ((nascam_readfile_worker d (rand f) ⟨f, tmp, q⟩).1).images.length)).sum
      ≤ (f0 :: rest).length * EXPECTED_FRAME_COUNT) :
    ∃ res, read d rand tmp q (f0 :: rest) workers sched = Except.ok res := by
  have hpool : read d rand tmp q (f0 :: rest) workers sched
      = readMerge (f0 :: rest).length
          ((f0 :: rest).map (fun f => (nascam_readfile_worker d (rand f) ⟨f, tmp, q⟩).1)) := by
    cases hw with
    | inl h1 =>
      subst h1
      exact read_workers_one d rand tmp q (f0 :: rest) sched
    | inr hp =>
      unfold read
      dsimp only
      rw [if_pos hp.1]
      rw [poolMapSched_perm _ _ _ (by simpa using hp.2)]
      rw [List.map_map, List.length_map]
      rfl
  rw [hpool, List.map_cons]
  rw [readMerge_ok_of (f0 :: rest).length _ _
    (by
      intro r hr
      cases List.mem_cons.mp hr with
      | inl he =>
        rw [he]
        exact worker_length d (rand f0) ⟨f0, tmp, q⟩
      | inr ht =>
        obtain ⟨f, hf, rfl⟩ := List.mem_map.mp ht
        exact worker_length d (rand f) ⟨f, tmp, q⟩)
    (by
      intro r hr
      cases List.mem_cons.mp hr with
      | inl he =>
        rw [he]
        exact hdims f0 (by simp)
      | inr ht =>
        obtain ⟨f, hf, rfl⟩ := List.mem_map.mp ht
        exact hdims f (by simp [hf]))
    (by
      simp only [List.map_cons, List.map_map, List.sum_cons, Function.comp] at hcap ⊢
      simpa using hcap)]
  exact ⟨_, rfl⟩

/-- C2, witness: the amended statement on two concrete well-formed PNG
files of equal dimensions. -/
theorem c2_witness :
    read diskTwo (fun _ => "w2") "/tmp" false [goodName, goodName2] 1 []
      = Except.ok ⟨2, 2, Dtype.uint16, [img2, img2], [mdGood, mdGood2], []⟩ := by
  obtain ⟨res, hres⟩ := c2_read_ok_of_uniform_dims diskTwo (fun _ => "w2")
    "/tmp" false goodName [goodName2] 1 [] (Or.inl rfl)
    (by decide) (by decide)
  have hconc : read diskTwo (fun _ => "w2") "/tmp" false [goodName, goodName2] 1 []
      = Except.ok ⟨2, 2, Dtype.uint16, [img2, img2], [mdGood, mdGood2], []⟩ := by rfl
  exact hconc

/-- C3, counterexample: the first file follows the filename contract but its
PNG payload is corrupt, so it yields zero frames (and recorded width/height
0); the second file decodes a 2×2 frame.  `read` neither uses the later
file's dimensions nor merges its frames: it raises on the buffer merge. -/
theorem c3_counterexample :
    ((nascam_readfile_worker diskTwo "r3" ⟨corruptName, "/tmp", false⟩).1).images = []
    ∧ ((nascam_readfile_worker diskTwo "r3" ⟨goodName, "/tmp", false⟩).1).images = [img2]
    ∧ read diskTwo (fun _ => "r3") "/tmp" false [corruptName, goodName] 1 []
      = Except.error "could not broadcast input array" :=
  ⟨rfl, rfl, rfl⟩

/-- C3 (amended): the width, height, and dtype used for the merge buffers
(and returned in the result) are those recorded in the **first input file's
FileResult**, whether or not that file decoded any frames — not those of the
first successfully decoded frame of the read call; when the first file yields
no frames and a later file decodes successfully, `read` raises rather than
adopting the later file's dimensions. -/
theorem c3_dims_from_first_file_result (d : Disk) (rand : String → String)
    (tmp : String) (q : Bool) (f0 : String) (rest : List String)
    (sched : List Nat) (res : ReadResult)
    (hok : read d rand tmp q (f0 :: rest) 1 sched = Except.ok res) :
    res.width = ((nascam_readfile_worker d (rand f0) ⟨f0, tmp, q⟩).1).image_width
    ∧ res.height = ((nascam_readfile_worker d (rand f0) ⟨f0, tmp, q⟩).1).image_height
    ∧ res.dtype = ((nascam_readfile_worker d (rand f0) ⟨f0, tmp, q⟩).1).image_dtype := by
  rw [read_workers_one, List.map_cons] at hok
  exact readMerge_dims _ _ _ _ hok

/-- C3, witness: the amended statement at a concrete successful read. -/
theorem c3_witness :
    read diskTwo (fun _ => "w3") "/tmp" false [goodName] 1 []
      = Except.ok ⟨2, 2, Dtype.uint16, [img2], [mdGood], []⟩
    ∧ (2 : Nat) = ((nascam_readfile_worker diskTwo "w3" ⟨goodName, "/tmp", false⟩).1).image_width :=
  ⟨rfl,
    (c3_dims_from_first_file_result diskTwo (fun _ => "w3") "/tmp" false
      goodName [] [] ⟨2, 2, Dtype.uint16, [img2], [mdGood], []⟩ rfl).1⟩

/-- C4, counterexample: file A is a tar that fails to open (0 surviving
frames), file B decodes one frame; `Ka + Kb = 1 ≤ 40`, yet `read [A, B]`
raises on the buffer merge instead of returning a volume of depth 1. -/
theorem c4_counterexample :
    ((nascam_readfile_worker diskTwo "r4" ⟨"a.png.tar", "/tmp", false⟩).1).images.length = 0
    ∧ ((nascam_readfile_worker diskTwo "r4" ⟨goodName, "/tmp", false⟩).1).images.length = 1
    ∧ read diskTwo (fun _ => "r4") "/tmp" false ["a.png.tar", goodName] 1 []
      = Except.error "could not broadcast input array" :=
  ⟨rfl, rfl, rfl⟩

/-- C4 (amended): for two input files A and B whose total surviving frame
count is at most `2 * EXPECTED_FRAME_COUNT`, **and** all of whose surviving
frames have the width and height recorded in A's FileResult, `read [A, B]`
returns the volume made of A's frames (in file order) followed by B's frames,
with the metadata sequence in the identical order and one problem entry per
problematic file. -/
theorem c4_concatenation (d : Disk) (rand : String → String) (tmp : String)
    (q : Bool) (A B : String) (sched : List Nat) (ra rb : FileResult)
    (hra : (nascam_readfile_worker d (rand A) ⟨A, tmp, q⟩).1 = ra)
    (hrb : (nascam_readfile_worker d (rand B) ⟨B, tmp, q⟩).1 = rb)
    (hdims : ∀ im ∈ ra.images ++ rb.images,
      im.w = ra.image_width ∧ im.h = ra.image_height)
    (hcount : ra.images.length + rb.images.length ≤ 2 * EXPECTED_FRAME_COUNT) :
    read d rand tmp q [A, B] 1 sched
      = Except.ok ⟨ra.image_width, ra.image_height, ra.image_dtype,
          ra.images ++ rb.images,
          ra.metadata_dict_list ++ rb.metadata_dict_list,
          problemsOf [ra, rb]⟩ := by
  rw [read_workers_one]
  simp only [List.map_cons, List.map_nil, hra, hrb]
  have h2 : ([A, B] : List String).length = 2 := rfl
  rw [h2]
  rw [readMerge_ok_of 2 ra [rb]
    (by
      intro r hr
      cases hr with
      | head => rw [← hra]; exact worker_length d (rand A) ⟨A, tmp, q⟩
      | tail _ hr2 =>
        cases hr2 with
        | head => rw [← hrb]; exact worker_length d (rand B) ⟨B, tmp, q⟩
        | tail _ hr3 => cases hr3)
    (by
      intro r hr im him
      cases hr with
      | head => exact hdims im (by simp [him])
      | tail _ hr2 =>
        cases hr2 with
        | head => exact hdims im (by simp [him])
        | tail _ hr3 => cases hr3)
    (by
      simp only [List.map_cons, List.map_nil, List.sum_cons, List.sum_nil]
      omega)]
  simp

/-- C4, witness: the amended statement on two concrete one-frame files. -/
theorem c4_witness :
    read diskTwo (fun _ => "w4") "/tmp" false [goodName, goodName2] 1 []
      = Except.ok ⟨2, 2, Dtype.uint16, [img2, img2], [mdGood, mdGood2], []⟩ := by
  have h := c4_concatenation diskTwo (fun _ => "w4") "/tmp" false
    goodName goodName2 []
    ((nascam_readfile_worker diskTwo "w4" ⟨goodName, "/tmp", false⟩).1)
    ((nascam_readfile_worker diskTwo "w4" ⟨goodName2, "/tmp", false⟩).1)
    rfl rfl (by decide) (by decide)
  exact h

/-- C5: whenever `read` on a non-empty input list whose total surviving
frame count fits the pre-allocated capacity returns a triple, the metadata
list has exactly the volume's depth: both buffers are trimmed to the same
final write cursor. -/
theorem c5_metadata_length_eq_depth (d : Disk) (rand : String → String)
    (tmp : String) (q : Bool) (fl : List String) (workers : Nat)
    (sched : List Nat) (res : ReadResult)
    (_hne : fl ≠ [])
    (_hcap : (fl.map
        (fun f => ((nascam_readfile_worker d (rand f) ⟨f, tmp, q⟩).1).images.length)).sum
      ≤ fl.length * EXPECTED_FRAME_COUNT)
    (hok : read d rand tmp q fl workers sched = Except.ok res) :
    res.metadata_dict_list.length = res.volume.length := by
  unfold read at hok
  dsimp only at hok
  by_cases hw : workers > 1
  · rw [if_pos hw] at hok
    refine readMerge_length _ _ _ ?_ hok
    intro r hr
    obtain ⟨o, ho, rfl⟩ := mem_poolMapSched _ _ _ _ hr
    exact worker_length d (rand o.filename) o
  · rw [if_neg hw] at hok
    refine readMerge_length _ _ _ ?_ hok
    intro r hr
    obtain ⟨o, ho, rfl⟩ := List.mem_map.mp hr
    exact worker_length d (rand o.filename) o

/-- C5, witness: the statement at a concrete successful read. -/
theorem c5_witness :
    ([goodName] : List String) ≠ []
    ∧ (([goodName] : List String).map
        (fun f => ((nascam_readfile_worker diskTwo "w5" ⟨f, "/tmp", false⟩).1).images.length)).sum
      ≤ ([goodName] : List String).length * EXPECTED_FRAME_COUNT
    ∧ ((⟨2, 2, Dtype.uint16, [img2], [mdGood], []⟩ : ReadResult)).metadata_dict_list.length
      = ((⟨2, 2, Dtype.uint16, [img2], [mdGood], []⟩ : ReadResult)).volume.length :=
  ⟨by decide, by decide,
    c5_metadata_length_eq_depth diskTwo (fun _ => "w5") "/tmp" false
      [goodName] 1 [] ⟨2, 2, Dtype.uint16, [img2], [mdGood], []⟩
      (by decide) (by decide) rfl⟩

/-- C6: for every input file, the PNG worker's FileResult has exactly as many
depth-stacked frames as metadata entries: a metadata-extraction failure
aborts the remaining frames keeping the entries accumulated so far, and a
decode failure pops the just-appended metadata entry and continues. -/
theorem c6_frames_match_metadata (d : Disk) (rand : String) (o : FileObj) :
    ((nascam_readfile_worker_png d rand o).1).images.length
      = ((nascam_readfile_worker_png d rand o).1).metadata_dict_list.length :=
  (worker_png_length d rand o).symm

/-- C7: for a fixed input list, `read` with a worker pool (`workers > 1`)
returns exactly the same result as sequential execution (`workers = 1`),
for every completion order of the pool's workers. -/
theorem c7_parallelism_invariance (d : Disk) (rand : String → String)
    (tmp : String) (q : Bool) (fl : List String) (workers : Nat)
    (sched : List Nat) (hw : 1 < workers)
    (hperm : sched.Perm (List.range fl.length)) :
    read d rand tmp q fl workers sched = read d rand tmp q fl 1 sched := by
  unfold read
  dsimp only
  rw [if_pos hw, if_neg (by omega : ¬ (1:Nat) > 1)]
  rw [poolMapSched_perm _ _ _ (by simpa using hperm)]

/-- C7, witness: two workers with completion order `[1, 0]` give the same
result as sequential execution on two concrete files. -/
theorem c7_witness :
    1 < 2
    ∧ ([1, 0] : List Nat).Perm (List.range ([goodName, goodName2] : List String).length)
    ∧ read diskTwo (fun _ => "w7") "/tmp" false [goodName, goodName2] 2 [1, 0]
      = read diskTwo (fun _ => "w7") "/tmp" false [goodName, goodName2] 1 [1, 0] :=
  ⟨by decide, by decide,
    c7_parallelism_invariance diskTwo (fun _ => "w7") "/tmp" false
      [goodName, goodName2] 2 [1, 0] (by decide) (by decide)⟩

set_option maxRecDepth 8000 in
/-- C8: reading the single file
`20090209_060501_gill_nascam-iccd02_5577_001000ms.png` holding one valid
256×256 PNG returns a volume of shape `(256, 256, 1)` and one metadata record
with project id `nascam`, site id `gill`, device id `nascam-iccd02`, mode id
`5577`, exposure `"1000.000 ms"` (the token's 6-character suffix stripped,
parsed as a decimal, formatted to 3 decimal places) and timestamp
2009-02-09T06:05:01. -/
theorem c8_concrete_scenario :
    read disk256 (fun _ => "scratch01") "/tmp" false [goodName] 1 []
      = Except.ok ⟨256, 256, Dtype.uint16, [img256], [mdGood], []⟩ := by
  rfl

/-- C9: for every file whose name ends in `.png.tar`, the PNG worker's
scratch directory does not exist when the worker returns — removed on the
success path, never created on the tar-open failure path, and removed (even
when only partially created) on the extract failure path. -/
theorem c9_scratch_dir_removed (d : Disk) (rand : String) (o : FileObj)
    (h : pyEndsWith o.filename ".png.tar" = true) :
    (nascam_readfile_worker_png d rand o).2 = false := by
  unfold nascam_readfile_worker_png
  rw [if_pos h]
  cases d.tar o.filename <;> rfl

/-- C9, witness: the statement at a concrete tar filename. -/
theorem c9_witness :
    pyEndsWith "a.png.tar" ".png.tar" = true
    ∧ (nascam_readfile_worker_png diskEmpty "w9" ⟨"a.png.tar", "/tmp", false⟩).2 = false :=
  ⟨rfl,
    c9_scratch_dir_removed diskEmpty "w9" ⟨"a.png.tar", "/tmp", false⟩ rfl⟩

/-- C10: on the empty input list, `read` raises (`pool_data[0]` during
buffer sizing is an IndexError) instead of returning an empty triple. -/
theorem c10_empty_list_raises (d : Disk) (rand : String → String)
    (tmp : String) (q : Bool) (workers : Nat) (sched : List Nat) :
    read d rand tmp q [] workers sched
      = Except.error "IndexError: list index out of range" := by
  unfold read
  dsimp only
  by_cases hw : workers > 1
  · rw [if_pos hw]
    rfl
  · rw [if_neg hw]
    rfl

end Nascam
